import Mathlib

/-!
Shallow embedding of the napcron periodic task runner
(`src/napcron/__init__.py`) and verification of its specification.

Modelling conventions:
* Instants are integers (seconds); `timedelta` intervals become integer
  second counts (`freqInterval`).
* ISO timestamp strings stay `String`; `datetime.fromisoformat` is an
  abstract parameter `parse : String → Option Int` of the environment
  (`none` models a parse failure / exception).
* Python `dict` values become association lists `List (String × Entry)`
  preserving insertion order; `dict.setdefault` appends at the end.
* Requirement predicates interact with the outside world, so the registry
  is a parameter `String → Option (String → Option Bool)`: the outer
  `Option` models presence in `REQUIREMENTS`, the inner one models the
  predicate either raising (`none`) or returning a boolean.
* Filesystem effects (state saving, lock marker) are reified as data in
  the run outcome (`saved : Bool`, the lock marker as `Option Int` mtime).
-/

namespace Napcron

/-! ## Frequencies (`FREQS`, lines 46-51) -/

inductive Freq where
  | hourly
  | daily
  | weekly
  | monthly
  deriving DecidableEq, Repr

/-- The YAML key naming each cadence. -/
def Freq.name : Freq → String
  | .hourly => "hourly"
  | .daily => "daily"
  | .weekly => "weekly"
  | .monthly => "monthly"

/-- `FREQS` intervals, in seconds: 1 hour, 1 day, 7 days, 30 days. -/
def freqInterval : Freq → Int
  | .hourly => 3600
  | .daily => 86400
  | .weekly => 604800
  | .monthly => 2592000

/-! ## Time helpers (lines 74-97) -/

/-- Python truthiness of an `Optional[str]`: `None` and `""` are falsy. -/
def pyTruthyStr : Option String → Bool
  | none => false
  | some s => s ≠ ""

/-- Python `a or b` on `Optional[str]` values. -/
def pyOrStr (a b : Option String) : Option String :=
  if pyTruthyStr a then a else b

/-- `parse_iso` (lines 81-87): falsy input gives `None`, otherwise try
`datetime.fromisoformat` (the abstract `parse`), exceptions give `None`. -/
def parse_iso (parse : String → Option Int) : Option String → Option Int
  | none => none
  | some s => if s = "" then none else parse s

/-- `is_due` (lines 89-97): true if enough time elapsed since
`last_success_iso` for this frequency. -/
def is_due (parse : String → Option Int) (now : Int)
    (last_success_iso : Option String) (freq : Freq) : Bool :=
  let interval := freqInterval freq
  if ¬ pyTruthyStr last_success_iso then true
  else
    match parse_iso parse last_success_iso with
    | none => true
    | some last => decide (now - last ≥ interval)

/-! ## Requirements (lines 182-202) -/

/-- `req_ac_power` (lines 182-184) over the detected power status
(`_ac_power_status`, `True`/`False`/`None`): true iff status `is True`. -/
def req_ac_power (status : Option Bool) : Bool :=
  status = some true

/-- `req_battery` (lines 186-191): `False` on unknown status, else true
iff the status `is False`. -/
def req_battery (status : Option Bool) : Bool :=
  match status with
  | none => false
  | some s => s = false

/-- `SPECIAL_REQUIREMENT_FLAGS` (lines 200-202). -/
def SPECIAL_REQUIREMENT_FLAGS : List String := ["rerun_onfail"]

/-- One iteration of the requirement loop (lines 396-405): `r` is unmet
when the registry has no entry, the predicate raises, or it returns a
falsy value. `evalOk` is the final value of `ok ∧ fn` present. -/
def evalOk (registry : String → Option (String → Option Bool))
    (r cmd : String) : Bool :=
  match registry r with
  | none => false
  | some fn =>
    match fn cmd with
    | none => false
    | some b => b

/-- The `unmet` list built by lines 395-405. -/
def unmetReqs (registry : String → Option (String → Option Bool))
    (reqs : List String) (cmd : String) : List String :=
  reqs.filter (fun r => ! evalOk registry r cmd)

/-- An ASCII single-quote character, kept out of string literals. -/
def sq : String := String.singleton (Char.ofNat 39)

/-- Python `repr` of a list of plain strings, as interpolated by the
f-string on line 409. -/
def pyReprList (l : List String) : String :=
  "[" ++ String.intercalate ", " (l.map (fun s => sq ++ s ++ sq)) ++ "]"

/-- The diagnostic note written on a requirement skip (line 409). -/
def skipNote (unmet : List String) : String :=
  "skipped: unmet requirements " ++ pyReprList unmet

/-! ## Task state records (lines 370-383) -/

/-- One per-task record of the state file (`tasks_state[task_id]`). -/
structure Entry where
  frequency : String
  cmd : String
  last_success : Option String
  last_attempt : Option String
  last_status : Option Int
  last_note : Option String
  deriving DecidableEq, Repr

/-- The default record inserted by `setdefault` (lines 370-377). -/
def freshEntry (freq cmd : String) : Entry :=
  { frequency := freq, cmd := cmd, last_success := none,
    last_attempt := none, last_status := none, last_note := none }

/-- The `tasks` mapping of the state, as an insertion-ordered
association list (Python dicts preserve insertion order). -/
abbrev TaskMap := List (String × Entry)

/-- Dictionary lookup `tasks_state.get(task_id)` (keys are unique in a
Python dict, so the first match is the match). -/
def lookupEntry : TaskMap → String → Option Entry
  | [], _ => none
  | p :: rest, tid => if p.1 = tid then some p.2 else lookupEntry rest tid

/-- In-place mutation of the record stored under `tid` (Python mutates
the dict object obtained from the mapping; the key set is unchanged). -/
def setEntry : TaskMap → String → Entry → TaskMap
  | [], _, _ => []
  | p :: rest, tid, e =>
    if p.1 = tid then (tid, e) :: rest else p :: setEntry rest tid e

/-- `tasks_state.setdefault(task_id, {...})` (lines 370-377): return the
existing record, or append a fresh one and return it. -/
def getOrCreate (ts : TaskMap) (tid : String) (freq cmd : String) :
    TaskMap × Entry :=
  match lookupEntry ts tid with
  | some e => (ts, e)
  | none => (ts ++ [(tid, freshEntry freq cmd)], freshEntry freq cmd)

/-! ## Reference timestamp for the due check (lines 381-387) -/

/-- `ref_time` computation: start from `last_success`; when
`rerun_onfail` is absent and `last_status not in (None, 0)`, use
`last_attempt or last_success`. -/
def refTime (last_success last_attempt : Option String)
    (last_status : Option Int) (rerun_onfail : Bool) : Option String :=
  if ¬ rerun_onfail ∧ last_status ≠ none ∧ last_status ≠ some 0 then
    pyOrStr last_attempt last_success
  else last_success

/-! ## Config model (output of `load_yaml`, lines 205-247) -/

/-- One normalized job: `{"cmd": str, "requires": [str, ...]}`. -/
structure Job where
  cmd : String
  requires : List String
  deriving DecidableEq, Repr

/-- A normalized config: cadence groups in dict order. -/
abbrev Config := List (Freq × List Job)

/-- `flags = {r for r in reqs_all if r in SPECIAL_REQUIREMENT_FLAGS}`
(line 365). -/
def jobFlags (reqs_all : List String) : List String :=
  reqs_all.filter (fun r => r ∈ SPECIAL_REQUIREMENT_FLAGS)

/-- `reqs = [r for r in reqs_all if r not in SPECIAL_REQUIREMENT_FLAGS]`
(line 366). -/
def jobReqs (reqs_all : List String) : List String :=
  reqs_all.filter (fun r => r ∉ SPECIAL_REQUIREMENT_FLAGS)

/-- `task_id = f"{freq}::{cmd}"` (line 368). -/
def taskId (freq : Freq) (cmd : String) : String :=
  freq.name ++ "::" ++ cmd

/-! ## The due-evaluation pass (lines 357-414) -/

/-- The environment a run observes: current instant, timestamp parser
(`datetime.fromisoformat`), and requirement registry (`REQUIREMENTS`
with real-world probe outcomes). -/
structure Env where
  now : Int
  parse : String → Option Int
  registry : String → Option (String → Option Bool)

/-- Accumulated state of the loop over config jobs: the tasks mapping,
the `seen` dedup set, and the `due` list (in discovery order). -/
structure PassState where
  tasks : TaskMap
  seen : List String
  due : List (String × String)
  deriving DecidableEq, Repr

/-- Lines 370-379: `setdefault` the record under the task id, then
refresh its `frequency` and `cmd` fields in place. Returns the updated
mapping and the refreshed record. -/
def fetchEntry (ts : TaskMap) (freq : Freq) (cmd : String) : TaskMap × Entry :=
  let tse := getOrCreate ts (taskId freq cmd) freq.name cmd
  let entry := { tse.2 with frequency := freq.name, cmd := cmd }
  (setEntry tse.1 (taskId freq cmd) entry, entry)

/-- The `ref_time` of lines 381-387 for a record and the job's raw
requirement list (out of which the `rerun_onfail` flag is read). -/
def jobRefTime (e : Entry) (reqs_all : List String) : Option String :=
  refTime e.last_success e.last_attempt e.last_status
    ("rerun_onfail" ∈ jobFlags reqs_all)

/-- The due check of line 389 for one job. -/
def jobDue (env : Env) (freq : Freq) (e : Entry) (reqs_all : List String) : Bool :=
  is_due env.parse env.now (jobRefTime e reqs_all) freq

/-- The body of the per-job loop (lines 362-414): fetch-or-create and
refresh the record, compute the reference timestamp, check dueness,
evaluate requirements, and collect the deduplicated due task. -/
def processJob (env : Env) (freq : Freq) (job : Job)
    (acc : PassState) : PassState :=
  let cmd := job.cmd
  let tid := taskId freq cmd
  let fe := fetchEntry acc.tasks freq cmd
  if ¬ jobDue env freq fe.2 job.requires then
    { acc with tasks := fe.1 }
  else
    let unmet := unmetReqs env.registry (jobReqs job.requires) cmd
    if unmet ≠ [] then
      { acc with
        tasks := setEntry fe.1 tid { fe.2 with last_note := some (skipNote unmet) } }
    else
      if tid ∈ acc.seen then { acc with tasks := fe.1 }
      else { tasks := fe.1, seen := acc.seen ++ [tid], due := acc.due ++ [(tid, cmd)] }

/-- The full due-evaluation pass over the config (lines 357-414),
starting from the loaded tasks mapping. -/
def duePass (env : Env) (config : Config) (tasks0 : TaskMap) : PassState :=
  config.foldl
    (fun acc fj => fj.2.foldl (fun a j => processJob env fj.1 j a) acc)
    { tasks := tasks0, seen := [], due := [] }

/-! ## Applying worker results (lines 439-453) -/

/-- A worker result tuple `(task_id, rc, started, finished)`
(lines 427-431). -/
abbrev ResultTup := String × Int × String × String

/-- The record mutation of lines 444-448: set `last_attempt` to the
start stamp, `last_status` to the code, `last_note` to the finish
marker, and on code 0 also `last_success` to the finish stamp. -/
def applyEntry (e : Entry) (r : ResultTup) : Entry :=
  let e1 := { e with
    last_attempt := some r.2.2.1
    last_status := some r.2.1
    last_note := some ("finished_at=" ++ r.2.2.2) }
  if r.2.1 = 0 then { e1 with last_success := some r.2.2.2 } else e1

/-- One iteration of the result-application loop (lines 442-451) over the
pair (tasks mapping, running exit code). `tasks_state[task_id]` raises
`KeyError` on a missing key, modelled by `none`. The exit code picks up
the result code only when it is non-zero and no non-zero code came
before (lines 449-451). -/
def applyOne (acc : TaskMap × Int) (r : ResultTup) : Option (TaskMap × Int) :=
  match lookupEntry acc.1 r.1 with
  | none => none
  | some e =>
    some (setEntry acc.1 r.1 (applyEntry e r),
      if r.2.1 = 0 then acc.2 else if acc.2 = 0 then r.2.1 else acc.2)

/-- The result-application phase: fold `applyOne` over the results in
arrival order, starting with exit code 0 (line 440). -/
def applyResults (ts : TaskMap) (results : List ResultTup) :
    Option (TaskMap × Int) :=
  results.foldlM applyOne (ts, 0)

/-- The first non-zero code of a list, 0 when there is none. -/
def firstNonZero (codes : List Int) : Int :=
  (codes.find? (fun c => c ≠ 0)).getD 0

/-! ## Locking (lines 272-297) -/

/-- `acquire_lock` given the lock marker (`none` when absent, else its
mtime) and an oracle `raceAfterRemove` telling whether another process
re-creates the marker between our `os.remove` and the retried
`_try_create`. Returns `some ()` when the lock is obtained. -/
def acquire_lock (now : Int) (marker : Option Int)
    (raceAfterRemove : Bool) : Option Unit :=
  match marker with
  | none => some ()
  | some mtime =>
    if now - mtime ≥ 2 * 3600 then
      if raceAfterRemove then none else some ()
    else none

/-! ## Worker pool size (line 424) -/

/-- `max_workers = args.max_workers if args.max_workers > 0 else
min(32, len(due))`; the CLI default of `--max-workers` is 0 (line 325). -/
def computeMaxWorkers (maxWorkersArg : Int) (dueLen : Nat) : Int :=
  if maxWorkersArg > 0 then maxWorkersArg else min 32 (dueLen : Int)

/-! ## The run tail of `main` (lines 419-462) -/

/-- What a run produces: the process exit code, whether `save_state` was
invoked, the due tasks submitted to the worker pool, and the final tasks
mapping. -/
structure Outcome where
  exitCode : Int
  saved : Bool
  submitted : List (String × String)
  tasks : TaskMap
  deriving DecidableEq, Repr

/-- The run from after `load_state` to `sys.exit` (lines 355-462), with
command execution abstracted as `exec : task_id → cmd →
(rc, started, finished)`. `none` models the uncaught `KeyError` of
line 443. In dry-run mode `run_command` returns 0 without spawning and
no results are applied (lines 307-315, 441, 454-458). -/
def mainRun (env : Env) (dry_run : Bool) (config : Config)
    (tasks0 : TaskMap) (exec : String → String → Int × String × String) :
    Option Outcome :=
  let pass := duePass env config tasks0
  if pass.due = [] then
    some { exitCode := 0, saved := !dry_run, submitted := [], tasks := pass.tasks }
  else
    if dry_run then
      some { exitCode := 0, saved := false, submitted := pass.due, tasks := pass.tasks }
    else
      let results := pass.due.map
        (fun tc => (tc.1, exec tc.1 tc.2))
      match applyResults pass.tasks results with
      | none => none
      | some tse =>
        some { exitCode := tse.2, saved := true, submitted := pass.due,
               tasks := tse.1 }

/-- `main` from the lock acquisition onwards (lines 341-462): on lock
contention exit 0, submitting nothing and saving nothing. -/
def napcronMain (env : Env) (dry_run : Bool) (config : Config)
    (tasks0 : TaskMap) (exec : String → String → Int × String × String)
    (marker : Option Int) (raceAfterRemove : Bool) : Option Outcome :=
  match acquire_lock env.now marker raceAfterRemove with
  | none => some { exitCode := 0, saved := false, submitted := [], tasks := tasks0 }
  | some _ => mainRun env dry_run config tasks0 exec

/-- The key set of a tasks mapping: `tid ∈ tasks_state`. -/
def hasKey (ts : TaskMap) (k : String) : Prop :=
  k ∈ ts.map Prod.fst

/-! ## Basic lemmas about the tasks mapping -/

theorem lookupEntry_ne_none_iff (ts : TaskMap) (k : String) :
    lookupEntry ts k ≠ none ↔ hasKey ts k := by
  induction ts with
  | nil => simp [lookupEntry, hasKey]
  | cons p rest ih =>
    by_cases h : p.1 = k
    · simp [lookupEntry, hasKey, h]
    · have h' : ¬ k = p.1 := fun hh => h hh.symm
      simpa [lookupEntry, hasKey, h, h'] using ih

theorem keys_setEntry (ts : TaskMap) (k : String) (e : Entry) :
    (setEntry ts k e).map Prod.fst = ts.map Prod.fst := by
  induction ts with
  | nil => rfl
  | cons p rest ih =>
    by_cases h : p.1 = k <;> simp [setEntry, h, ih]

theorem hasKey_setEntry (ts : TaskMap) (k k0 : String) (e : Entry) :
    hasKey (setEntry ts k0 e) k ↔ hasKey ts k := by
  unfold hasKey
  rw [keys_setEntry]

theorem lookup_setEntry_self (ts : TaskMap) (k : String) (e : Entry)
    (h : hasKey ts k) : lookupEntry (setEntry ts k e) k = some e := by
  induction ts with
  | nil => simp [hasKey] at h
  | cons p rest ih =>
    by_cases h1 : p.1 = k
    · simp [setEntry, lookupEntry, h1]
    · have hrest : hasKey rest k := by
        simp [hasKey, h1, eq_comm] at h ⊢
        tauto
      simp [setEntry, lookupEntry, h1, ih hrest]

theorem lookup_setEntry_ne (ts : TaskMap) (k k0 : String) (e : Entry)
    (h : k ≠ k0) : lookupEntry (setEntry ts k0 e) k = lookupEntry ts k := by
  induction ts with
  | nil => rfl
  | cons p rest ih =>
    have h3 : ¬ k0 = k := fun hh => h hh.symm
    by_cases h1 : p.1 = k0
    · simp [setEntry, lookupEntry, h1, h3]
    · by_cases h2 : p.1 = k <;> simp [setEntry, lookupEntry, h1, h2, h, ih]

/-! ## Key-set lemmas for the pass -/

theorem hasKey_getOrCreate_mono (ts : TaskMap) (tid f c k : String)
    (h : hasKey ts k) : hasKey (getOrCreate ts tid f c).1 k := by
  unfold getOrCreate
  cases hl : lookupEntry ts tid
  · simpa [hasKey] using Or.inl h
  · exact h

theorem hasKey_getOrCreate_self (ts : TaskMap) (tid f c : String) :
    hasKey (getOrCreate ts tid f c).1 tid := by
  unfold getOrCreate
  cases hl : lookupEntry ts tid
  · simp [hasKey]
  · exact (lookupEntry_ne_none_iff ts tid).mp (by simp [hl])

theorem hasKey_fetchEntry_mono (ts : TaskMap) (freq : Freq) (cmd k : String)
    (h : hasKey ts k) : hasKey (fetchEntry ts freq cmd).1 k := by
  unfold fetchEntry
  simpa [hasKey_setEntry] using
    hasKey_getOrCreate_mono ts (taskId freq cmd) freq.name cmd k h

theorem hasKey_fetchEntry_self (ts : TaskMap) (freq : Freq) (cmd : String) :
    hasKey (fetchEntry ts freq cmd).1 (taskId freq cmd) := by
  unfold fetchEntry
  simpa [hasKey_setEntry] using
    hasKey_getOrCreate_self ts (taskId freq cmd) freq.name cmd

/-- The tasks mapping a job step produces is the refreshed mapping,
possibly with the requirement-skip note written into this job's record. -/
theorem processJob_tasks_cases (env : Env) (freq : Freq) (job : Job)
    (acc : PassState) :
    (processJob env freq job acc).tasks = (fetchEntry acc.tasks freq job.cmd).1 ∨
    (processJob env freq job acc).tasks =
      setEntry (fetchEntry acc.tasks freq job.cmd).1 (taskId freq job.cmd)
        { (fetchEntry acc.tasks freq job.cmd).2 with
          last_note := some (skipNote
            (unmetReqs env.registry (jobReqs job.requires) job.cmd)) } := by
  unfold processJob
  dsimp only
  split
  · exact Or.inl rfl
  · split
    · exact Or.inr rfl
    · split <;> exact Or.inl rfl

theorem processJob_tasks_hasKey_mono (env : Env) (freq : Freq) (job : Job)
    (acc : PassState) (k : String) (h : hasKey acc.tasks k) :
    hasKey (processJob env freq job acc).tasks k := by
  rcases processJob_tasks_cases env freq job acc with hc | hc <;> rw [hc]
  · exact hasKey_fetchEntry_mono _ _ _ _ h
  · simpa [hasKey_setEntry] using hasKey_fetchEntry_mono acc.tasks freq job.cmd k h

theorem processJob_tasks_hasKey_self (env : Env) (freq : Freq) (job : Job)
    (acc : PassState) :
    hasKey (processJob env freq job acc).tasks (taskId freq job.cmd) := by
  rcases processJob_tasks_cases env freq job acc with hc | hc <;> rw [hc]
  · exact hasKey_fetchEntry_self _ _ _
  · simpa [hasKey_setEntry] using hasKey_fetchEntry_self acc.tasks freq job.cmd

theorem foldJobs_hasKey_mono (env : Env) (freq : Freq) (jobs : List Job)
    (acc : PassState) (k : String) (h : hasKey acc.tasks k) :
    hasKey ((jobs.foldl (fun a j => processJob env freq j a) acc)).tasks k := by
  induction jobs generalizing acc with
  | nil => exact h
  | cons j rest ih =>
    exact ih (processJob env freq j acc)
      (processJob_tasks_hasKey_mono env freq j acc k h)

theorem foldJobs_hasKey_self (env : Env) (freq : Freq) (jobs : List Job)
    (acc : PassState) (job : Job) (hj : job ∈ jobs) :
    hasKey ((jobs.foldl (fun a j => processJob env freq j a) acc)).tasks
      (taskId freq job.cmd) := by
  induction jobs generalizing acc with
  | nil => cases hj
  | cons j rest ih =>
    rcases List.mem_cons.mp hj with h | h
    · subst h
      exact foldJobs_hasKey_mono env freq rest _ _
        (processJob_tasks_hasKey_self env freq job acc)
    · exact ih (processJob env freq j acc) h

theorem foldConfig_hasKey_mono (env : Env) (config : Config)
    (acc : PassState) (k : String) (h : hasKey acc.tasks k) :
    hasKey ((config.foldl
      (fun acc fj => fj.2.foldl (fun a j => processJob env fj.1 j a) acc)
      acc)).tasks k := by
  induction config generalizing acc with
  | nil => exact h
  | cons fj rest ih =>
    exact ih _ (foldJobs_hasKey_mono env fj.1 fj.2 acc k h)

theorem foldConfig_hasKey_self (env : Env) (config : Config)
    (acc : PassState) (freq : Freq) (jobs : List Job) (job : Job)
    (hg : (freq, jobs) ∈ config) (hj : job ∈ jobs) :
    hasKey ((config.foldl
      (fun acc fj => fj.2.foldl (fun a j => processJob env fj.1 j a) acc)
      acc)).tasks (taskId freq job.cmd) := by
  induction config generalizing acc with
  | nil => cases hg
  | cons fj rest ih =>
    rcases List.mem_cons.mp hg with h | h
    · rw [← h]
      exact foldConfig_hasKey_mono env rest _ _
        (foldJobs_hasKey_self env freq jobs acc job hj)
    · exact ih (fj.2.foldl (fun a j => processJob env fj.1 j a) acc) h

/-! ## Claim theorems -/

/-- C1: For every task, the reference timestamp used in the due check is
`last_success` when the record has no prior attempt (`last_status`
absent), or the last recorded status is 0, or the `rerun_onfail` flag is
declared for the task; otherwise (`last_status` present and non-zero,
`rerun_onfail` absent) the reference is `last_attempt`, falling back to
`last_success` when `last_attempt` is absent. (Timestamps the program
itself records are never the empty string, hence the hypothesis.) -/
theorem refTime_reference_choice (ls la : Option String) (st : Option Int)
    (ro : Bool) (hla : la ≠ some "") :
    refTime ls la st ro =
      if st = none ∨ st = some 0 ∨ ro = true then ls
      else if la = none then ls else la := by
  unfold refTime
  by_cases hc : st = none ∨ st = some 0 ∨ ro = true
  · rw [if_pos hc, if_neg]
    rintro ⟨h1, h2, h3⟩
    rcases hc with h | h | h
    · exact h2 h
    · exact h3 h
    · exact h1 h
  · push_neg at hc
    rw [if_pos ⟨hc.2.2, hc.1, hc.2.1⟩, if_neg (by push_neg; exact hc)]
    rcases la with _ | a
    · simp [pyOrStr, pyTruthyStr]
    · have ha : a ≠ "" := fun h => hla (by rw [h])
      simp [pyOrStr, pyTruthyStr, ha]

theorem refTime_reference_choice_witness :
    refTime (some "sx") (some "ax") (some 1) false = some "ax" := by
  have h := refTime_reference_choice (some "sx") (some "ax") (some 1) false
    (by simp)
  simpa using h

/-- C2: for every cadence and reference, the task is due iff the
reference is absent, fails to parse, or the elapsed time since the
reference is at least the cadence interval; equality with the interval
is due and any strictly smaller elapsed time is not due. -/
theorem is_due_characterization (parse : String → Option Int) (now : Int)
    (ref : Option String) (freq : Freq) :
    (is_due parse now ref freq = true ↔
      (ref = none ∨ parse_iso parse ref = none ∨
        ∃ t, parse_iso parse ref = some t ∧ now - t ≥ freqInterval freq)) ∧
    ∀ t, parse_iso parse ref = some t →
      ((now - t = freqInterval freq → is_due parse now ref freq = true) ∧
       (now - t < freqInterval freq → is_due parse now ref freq = false)) := by
  constructor
  · rcases ref with _ | s
    · simp [is_due, parse_iso, pyTruthyStr]
    · by_cases hs : s = ""
      · subst hs
        simp [is_due, parse_iso, pyTruthyStr]
      · rcases hp : parse s with _ | t <;>
          simp [is_due, parse_iso, pyTruthyStr, hs, hp]
  · intro t ht
    rcases ref with _ | s
    · simp [parse_iso] at ht
    · by_cases hs : s = ""
      · subst hs
        simp [parse_iso] at ht
      · rw [parse_iso] at ht
        rw [if_neg hs] at ht
        constructor <;> intro h <;>
          simp [is_due, parse_iso, pyTruthyStr, hs, ht] <;> omega

theorem is_due_characterization_witness :
    is_due (fun _ => some 0) 3600 (some "ts") Freq.hourly = true := by
  have h := (is_due_characterization (fun _ => some 0) 3600 (some "ts")
    Freq.hourly).2 0 (by simp [parse_iso])
  exact h.1 rfl

/-- C7: the battery requirement is true iff the power status is
explicitly known and is not mains power; on unknown status both
`ac_power` and `battery` are false; the two are never simultaneously
true, and they are complements exactly when the status is known. -/
theorem battery_ac_power_relation (status : Option Bool) :
    (req_battery status = true ↔ status ≠ none ∧ status ≠ some true) ∧
    (status = none → req_ac_power status = false ∧ req_battery status = false) ∧
    (req_ac_power status && req_battery status) = false ∧
    (req_battery status = !req_ac_power status ↔ status ≠ none) := by
  rcases status with _ | b
  · decide
  · cases b <;> decide

theorem battery_ac_power_relation_witness :
    req_battery (some false) = true :=
  ((battery_ac_power_relation (some false)).1).mpr (by simp)

/-- C9: a `--max-workers` value of 0 or negative is no override — the
pool size falls back to the due-set count capped at 32 — while a
strictly positive value is used as the explicit pool size. -/
theorem maxWorkers_override_rule (a : Int) (n : Nat) :
    (a ≤ 0 → computeMaxWorkers a n = min 32 (n : Int)) ∧
    (0 < a → computeMaxWorkers a n = a) := by
  constructor
  · intro h
    have h2 : ¬ a > 0 := by omega
    simp [computeMaxWorkers, h2]
  · intro h
    simp [computeMaxWorkers, h]

theorem maxWorkers_override_rule_witness :
    computeMaxWorkers 0 40 = 32 ∧ computeMaxWorkers 5 40 = 5 := by
  constructor
  · have h := (maxWorkers_override_rule 0 40).1 le_rfl
    simpa using h
  · exact (maxWorkers_override_rule 5 40).2 (by omega)

/-! ## Result-application lemmas -/

theorem firstNonZero_cons (c : Int) (cs : List Int) :
    firstNonZero (c :: cs) = if c = 0 then firstNonZero cs else c := by
  by_cases h : c = 0 <;> simp [firstNonZero, List.find?_cons, h]

/-- A fold of results whose task ids all differ from `k` leaves the
record under `k` unchanged. -/
theorem applyResults_lookup_frozen (results : List ResultTup) :
    ∀ (k : String) (ts : TaskMap) (ec0 : Int) (tse : TaskMap × Int),
      (∀ x ∈ results, x.1 ≠ k) →
      results.foldlM applyOne (ts, ec0) = some tse →
      lookupEntry tse.1 k = lookupEntry ts k := by
  induction results with
  | nil =>
    intro k ts ec0 tse _ h
    simp only [List.foldlM_nil, pure, Option.some.injEq] at h
    rw [← h]
  | cons r rest ih =>
    intro k ts ec0 tse hk h
    rw [List.foldlM_cons] at h
    rcases ha : applyOne (ts, ec0) r with _ | p
    · rw [ha] at h
      simp at h
    · rw [ha] at h
      have hk1 : k ≠ r.1 := fun hh => hk r (by simp) hh.symm
      have hrest : ∀ x ∈ rest, x.1 ≠ k := fun x hx => hk x (by simp [hx])
      unfold applyOne at ha
      rcases hl2 : lookupEntry ts r.1 with _ | e <;> rw [hl2] at ha
      · cases ha
      · simp only [Option.some.injEq] at ha
        have hstep := ih k p.1 p.2 tse hrest (by simpa using h)
        rw [hstep, ← ha]
        exact lookup_setEntry_ne ts k r.1 (applyEntry e r) hk1

/-- The result fold succeeds when every result id has a record, its exit
code accumulator picks up the first non-zero code, and every result is
applied to its record, regardless of earlier non-zero codes. -/
theorem applyResults_fold_spec (results : List ResultTup) :
    ∀ (ts : TaskMap) (ec0 : Int),
      (results.map (fun r => r.1)).Nodup →
      (∀ r ∈ results, hasKey ts r.1) →
      ∃ tse, results.foldlM applyOne (ts, ec0) = some tse ∧
        tse.2 = (if ec0 = 0 then
          firstNonZero (results.map (fun r => r.2.1)) else ec0) ∧
        ∀ r ∈ results, ∃ e, lookupEntry ts r.1 = some e ∧
          lookupEntry tse.1 r.1 = some (applyEntry e r) := by
  induction results with
  | nil =>
    intro ts ec0 _ _
    refine ⟨(ts, ec0), by simp [List.foldlM_nil, pure], ?_, by simp⟩
    by_cases h : ec0 = 0 <;> simp [firstNonZero, h]
  | cons r rest ih =>
    intro ts ec0 hnodup hkeys
    have hkr : hasKey ts r.1 := hkeys r (by simp)
    obtain ⟨e, he⟩ : ∃ e, lookupEntry ts r.1 = some e := by
      have h2 := (lookupEntry_ne_none_iff ts r.1).mpr hkr
      cases hl : lookupEntry ts r.1
      · exact absurd hl h2
      · exact ⟨_, rfl⟩
    have hstep : applyOne (ts, ec0) r =
        some (setEntry ts r.1 (applyEntry e r),
          if r.2.1 = 0 then ec0 else if ec0 = 0 then r.2.1 else ec0) := by
      unfold applyOne
      rw [he]
    simp only [List.map_cons, List.nodup_cons] at hnodup
    have hkeys2 : ∀ x ∈ rest, hasKey (setEntry ts r.1 (applyEntry e r)) x.1 :=
      fun x hx => (hasKey_setEntry _ _ _ _).mpr (hkeys x (by simp [hx]))
    obtain ⟨tse, hfold, hec, hlook⟩ := ih (setEntry ts r.1 (applyEntry e r))
      (if r.2.1 = 0 then ec0 else if ec0 = 0 then r.2.1 else ec0)
      hnodup.2 hkeys2
    refine ⟨tse, ?_, ?_, ?_⟩
    · rw [List.foldlM_cons, hstep]
      simpa using hfold
    · rw [hec]
      by_cases hrc : r.2.1 = 0
      · simp [firstNonZero_cons, hrc]
      · by_cases he0 : ec0 = 0 <;> simp [firstNonZero_cons, hrc, he0]
    · intro x hx
      rcases List.mem_cons.mp hx with hx1 | hx2
      · subst hx1
        refine ⟨e, he, ?_⟩
        have hfrozen : lookupEntry tse.1 x.1 =
            lookupEntry (setEntry ts x.1 (applyEntry e x)) x.1 := by
          apply applyResults_lookup_frozen rest x.1 _ _ tse ?_ hfold
          intro y hy hcontra
          exact hnodup.1 (List.mem_map.mpr ⟨y, hy, hcontra⟩)
        rw [hfrozen]
        exact lookup_setEntry_self ts x.1 (applyEntry e x) hkr
      · obtain ⟨e2, he2, hf2⟩ := hlook x hx2
        have hxr : x.1 ≠ r.1 := by
          intro hcontra
          exact hnodup.1 (List.mem_map.mpr ⟨x, hx2, hcontra⟩)
        refine ⟨e2, ?_, hf2⟩
        rw [← he2]
        exact (lookup_setEntry_ne ts x.1 r.1 (applyEntry e r) hxr).symm

/-- C3: for every list of worker results applied in a non-dry run, the
process exit code equals the first non-zero result code in arrival order
(0 when every code is 0 or no task ran), and a non-zero code does not
stop the remaining results from being applied to the state. -/
theorem exit_code_first_nonzero (ts : TaskMap) (results : List ResultTup)
    (hkeys : ∀ r ∈ results, lookupEntry ts r.1 ≠ none)
    (hnodup : (results.map (fun r => r.1)).Nodup) :
    ∃ tse, applyResults ts results = some tse ∧
      tse.2 = firstNonZero (results.map (fun r => r.2.1)) ∧
      ∀ r ∈ results, ∃ e, lookupEntry ts r.1 = some e ∧
        lookupEntry tse.1 r.1 = some (applyEntry e r) := by
  have h := applyResults_fold_spec results ts 0 hnodup
    (fun r hr => (lookupEntry_ne_none_iff ts r.1).mp (hkeys r hr))
  simpa [applyResults] using h

theorem exit_code_first_nonzero_witness :
    ∃ tse,
      applyResults [("t", freshEntry "daily" "c"), ("u", freshEntry "daily" "d")]
        [("t", 7, "s1", "f1"), ("u", 0, "s2", "f2")] = some tse ∧
      tse.2 = firstNonZero
        (([("t", 7, "s1", "f1"), ("u", 0, "s2", "f2")] : List ResultTup).map
          (fun r => r.2.1)) ∧
      ∀ r ∈ ([("t", 7, "s1", "f1"), ("u", 0, "s2", "f2")] : List ResultTup),
        ∃ e, lookupEntry [("t", freshEntry "daily" "c"),
            ("u", freshEntry "daily" "d")] r.1 = some e ∧
          lookupEntry tse.1 r.1 = some (applyEntry e r) :=
  exit_code_first_nonzero
    [("t", freshEntry "daily" "c"), ("u", freshEntry "daily" "d")]
    [("t", 7, "s1", "f1"), ("u", 0, "s2", "f2")]
    (by decide) (by decide)

/-- C4: for a due task, each declared non-flag requirement counts as
unmet when its name has no registered predicate, when the predicate
raises, or when it returns false; a non-empty unmet set makes this pass
skip the task (it joins neither `seen` nor `due`) and write `last_note`
as a diagnostic listing the unmet names, while `last_success`,
`last_attempt` and `last_status` are left unchanged. -/
theorem unmet_requirements_skip (env : Env) (freq : Freq) (job : Job)
    (acc : PassState) (r cmd0 : String)
    (hdue : jobDue env freq (fetchEntry acc.tasks freq job.cmd).2
      job.requires = true)
    (hunmet : unmetReqs env.registry (jobReqs job.requires) job.cmd ≠ []) :
    (r ∈ unmetReqs env.registry (jobReqs job.requires) cmd0 ↔
      r ∈ jobReqs job.requires ∧
        (env.registry r = none ∨
          ∃ fn, env.registry r = some fn ∧
            (fn cmd0 = none ∨ fn cmd0 = some false))) ∧
    (processJob env freq job acc).seen = acc.seen ∧
    (processJob env freq job acc).due = acc.due ∧
    lookupEntry (processJob env freq job acc).tasks (taskId freq job.cmd) =
      some { (fetchEntry acc.tasks freq job.cmd).2 with
             last_note := some (skipNote
               (unmetReqs env.registry (jobReqs job.requires) job.cmd)) } := by
  have hproc : processJob env freq job acc =
      { acc with tasks := setEntry (fetchEntry acc.tasks freq job.cmd).1 (taskId freq job.cmd) ({ (fetchEntry acc.tasks freq job.cmd).2 with last_note := some (skipNote (unmetReqs env.registry (jobReqs job.requires) job.cmd)) }) } := by
    unfold processJob
    dsimp only
    rw [if_neg (by simp [hdue]), if_pos hunmet]
  refine ⟨?_, ?_, ?_, ?_⟩
  · simp only [unmetReqs, List.mem_filter]
    rcases hreg : env.registry r with _ | fn
    · simp [evalOk, hreg]
    · rcases hfn : fn cmd0 with _ | b
      · simp [evalOk, hreg, hfn]
      · cases b <;> simp [evalOk, hreg, hfn]
  · rw [hproc]
  · rw [hproc]
  · rw [hproc]
    exact lookup_setEntry_self _ _ _ (hasKey_fetchEntry_self acc.tasks freq job.cmd)

theorem unmet_requirements_skip_witness :
    lookupEntry (processJob ⟨0, fun _ => none, fun _ => none⟩ Freq.daily
        ⟨"cw", ["internet"]⟩ ⟨[], [], []⟩).tasks (taskId Freq.daily "cw") =
      some { (fetchEntry [] Freq.daily "cw").2 with
             last_note := some (skipNote
               (unmetReqs (fun _ => none) (jobReqs ["internet"]) "cw")) } :=
  (unmet_requirements_skip ⟨0, fun _ => none, fun _ => none⟩ Freq.daily
    ⟨"cw", ["internet"]⟩ ⟨[], [], []⟩ "internet" "cw"
    (by decide) (by decide)).2.2.2

/-- C8: after the due-evaluation pass over the configuration, every task
id derived from the configuration (cadence joined with command text) has
a record in the snapshot, even for tasks that turned out not due; and a
record created for a first-sighted task id starts with null
`last_success`, `last_attempt`, `last_status` and `last_note`. -/
theorem pass_creates_and_keeps_records (env : Env) (config : Config)
    (tasks0 : TaskMap) (freq : Freq) (jobs : List Job) (job : Job)
    (hg : (freq, jobs) ∈ config) (hj : job ∈ jobs) :
    lookupEntry (duePass env config tasks0).tasks (taskId freq job.cmd) ≠ none ∧
    ∀ (ts : TaskMap) (tid f c : String), lookupEntry ts tid = none →
      (getOrCreate ts tid f c).2 =
        { frequency := f, cmd := c, last_success := none,
          last_attempt := none, last_status := none, last_note := none } := by
  constructor
  · rw [lookupEntry_ne_none_iff]
    unfold duePass
    exact foldConfig_hasKey_self env config _ freq jobs job hg hj
  · intro ts tid f c h
    unfold getOrCreate
    rw [h]
    rfl

theorem pass_creates_and_keeps_records_witness :
    lookupEntry (duePass ⟨0, fun _ => none, fun _ => none⟩
        [(Freq.daily, [⟨"echo hi", []⟩])] []).tasks
      (taskId Freq.daily "echo hi") ≠ none :=
  (pass_creates_and_keeps_records ⟨0, fun _ => none, fun _ => none⟩
    [(Freq.daily, [⟨"echo hi", []⟩])] [] Freq.daily [⟨"echo hi", []⟩]
    ⟨"echo hi", []⟩ (by simp) (by simp)).1

/-- The run tail calls `save_state` exactly when it is not a dry run:
both exit paths (empty due-set, results applied) are guarded by
`not args.dry_run`. -/
theorem mainRun_saved (env : Env) (dry : Bool) (config : Config)
    (tasks0 : TaskMap) (exec : String → String → Int × String × String)
    (o : Outcome) (h : mainRun env dry config tasks0 exec = some o) :
    o.saved = !dry := by
  unfold mainRun at h
  dsimp only at h
  split at h
  · injection h with h
    rw [← h]
  · split at h
    case isTrue hdry =>
      injection h with h
      rw [← h, hdry]
      rfl
    case isFalse hdry =>
      rw [Bool.not_eq_true] at hdry
      split at h
      · exact Option.noConfusion h
      · injection h with h
        rw [← h, hdry]
        rfl

/-- C5: a run invoked with `--dry-run` never invokes `save_state`, so
the on-disk state is untouched, regardless of the configuration, the
prior state, how many tasks are due or which requirement-skip notes were
computed in memory. -/
theorem dry_run_never_saves (env : Env) (config : Config) (tasks0 : TaskMap)
    (exec : String → String → Int × String × String) (marker : Option Int)
    (race : Bool) (o : Outcome)
    (h : napcronMain env true config tasks0 exec marker race = some o) :
    o.saved = false := by
  unfold napcronMain at h
  rcases hacq : acquire_lock env.now marker race with _ | t <;> rw [hacq] at h
  · injection h with h
    rw [← h]
  · simpa using mainRun_saved env true config tasks0 exec o h

theorem dry_run_never_saves_witness :
    ({ exitCode := 0, saved := false, submitted := [], tasks := [] } : Outcome).saved
      = false :=
  dry_run_never_saves ⟨0, fun _ => none, fun _ => none⟩ [] []
    (fun _ _ => (0, "", "")) none false
    { exitCode := 0, saved := false, submitted := [], tasks := [] } (by rfl)

/-- C6: when lock-marker creation fails because the marker exists,
`acquire_lock` removes the marker and retries creation exactly once if
the marker's age is at least 2 hours (the retry failing only if another
instance re-creates the marker in between), and otherwise returns no
token; a run that obtains no token exits 0 without submitting any task
and without saving. -/
theorem lock_stale_retry_and_contention (now mtime : Int) (race : Bool)
    (env : Env) (dry : Bool) (config : Config) (tasks0 : TaskMap)
    (exec : String → String → Int × String × String) (marker : Option Int) :
    (now - mtime ≥ 2 * 3600 →
      acquire_lock now (some mtime) race = if race then none else some ()) ∧
    (now - mtime < 2 * 3600 → acquire_lock now (some mtime) race = none) ∧
    (acquire_lock env.now marker race = none →
      napcronMain env dry config tasks0 exec marker race =
        some { exitCode := 0, saved := false, submitted := [], tasks := tasks0 }) := by
  refine ⟨?_, ?_, ?_⟩
  · intro h
    show (if now - mtime ≥ 2 * 3600 then
        if race then none else some () else none : Option Unit) =
      if race then none else some ()
    rw [if_pos h]
  · intro h
    show (if now - mtime ≥ 2 * 3600 then
        if race then none else some () else none : Option Unit) = none
    rw [if_neg (by omega)]
  · intro h
    unfold napcronMain
    rw [h]

theorem lock_stale_retry_and_contention_witness :
    acquire_lock 10000 (some 0) false = some () ∧
    napcronMain ⟨0, fun _ => none, fun _ => none⟩ false [] []
      (fun _ _ => (0, "", "")) (some 0) false =
      some { exitCode := 0, saved := false, submitted := [], tasks := [] } := by
  constructor
  · have h := (lock_stale_retry_and_contention 10000 0 false
      ⟨0, fun _ => none, fun _ => none⟩ false [] []
      (fun _ _ => (0, "", "")) (some 0)).1 (by omega)
    simpa using h
  · exact (lock_stale_retry_and_contention 10000 0 false
      ⟨0, fun _ => none, fun _ => none⟩ false [] []
      (fun _ _ => (0, "", "")) (some 0)).2.2 (by rfl)

/-- C10: a non-dry run that holds the lock always invokes `save_state`,
even when the due-set is empty and no command executes, so newly created
records, refreshed cadence/command fields and requirement-skip notes are
persisted by every non-dry run. -/
theorem non_dry_run_saves (env : Env) (config : Config) (tasks0 : TaskMap)
    (exec : String → String → Int × String × String) (o : Outcome)
    (h : mainRun env false config tasks0 exec = some o) :
    o.saved = true := by
  simpa using mainRun_saved env false config tasks0 exec o h

theorem non_dry_run_saves_witness :
    ({ exitCode := 0, saved := true, submitted := [], tasks := [] } : Outcome).saved
      = true :=
  non_dry_run_saves ⟨0, fun _ => none, fun _ => none⟩ [] []
    (fun _ _ => (0, "", ""))
    { exitCode := 0, saved := true, submitted := [], tasks := [] } (by rfl)

end Napcron
